import Mathlib

/-!
Shallow embedding of the stm32f3-oscilloscope firmware (src/capture.rs,
src/siggen.rs, src/main.rs) and proofs about its sample-rate timebase
computation, signal-generator frequency computation, overrun-flag handling,
sample-to-pixel plotting, sweep state machine, and button debouncing.

Machine integers are modelled as `Nat`; the one place where `u32`
subtraction can wrap (a quotient of zero decremented by one) is modelled
explicitly with `% 2^32`.
-/

namespace Oscilloscope

/-- Wrapping 32-bit decrement: models the Rust expression `q - 1` on `u32`
(release semantics), which wraps to `2 ^ 32 - 1` when `q = 0`. -/
def u32sub1 (q : Nat) : Nat := (q + 4294967295) % 4294967296

/-- Embedding of `capture::set_timebase` (src/capture.rs lines 217-234).
Returns the pair `(arr, psc)` written to TIM15's reload and prescale
registers. The subtractions are `u32` subtractions. -/
def set_timebase (samples_per_second : Nat) : Nat × Nat :=
  if samples_per_second > 1097 then
    (u32sub1 (72000000 / samples_per_second), 0)
  else
    (u32sub1 ((72000000 / 2250) / samples_per_second), 2249)

/-- Reload value claimed by the spec for the high-rate branch, read as plain
integer arithmetic with floor division: `72_000_000 / r - 1`. -/
def spec_timebase_reload (r : Nat) : Int := (72000000 : Int) / (r : Int) - 1

/-- Embedding of `siggen_set_freq` (src/siggen.rs lines 175-181):
`arr = max(36_000_000 / 144 / freq - 1, 1)` in `u32` arithmetic. -/
def siggen_set_freq (freq : Nat) : Nat :=
  max (u32sub1 (36000000 / 144 / freq)) 1

/-- Embedding of `capture::get_transferred_sample_count`
(src/capture.rs lines 181-184): `160 - ndt`, where `ndt` is the DMA
channel's remaining-transfer count register. -/
def get_transferred_sample_count (ndt : Nat) : Nat := 160 - ndt

/-- Embedding of `capture::check_adc_ovr_flag` (src/capture.rs lines
202-211). The hardware flag is modelled as a `Bool` passed in; the result
is `(returned value, flag state after the call)`: the flag is read,
returned, and cleared when it was set. -/
def check_adc_ovr_flag (ovr : Bool) : Bool × Bool :=
  if ovr then (true, false) else (false, ovr)

/-! Helper facts about the wrapping decrement. -/

lemma u32sub1_of_pos {q : Nat} (h1 : 1 ≤ q) (h2 : q ≤ 72000000) :
    u32sub1 q = q - 1 := by
  unfold u32sub1
  omega

/-! ### Claim C1 -/

/-- Claim C1 (amended): for every sample rate `r` with
`1 ≤ r ≤ 72_000_000`, `set_timebase r` computes exactly the two-branch
integer formula: if `r > 1097` then `(72_000_000/r - 1, 0)` else
`((72_000_000/2250)/r - 1, 2249)`, with floor division. The bound
`r ≤ 72_000_000` keeps the `u32` subtraction from wrapping. -/
theorem set_timebase_two_branch (r : Nat) (h1 : 1 ≤ r) (h2 : r ≤ 72000000) :
    set_timebase r =
      if r > 1097 then (72000000 / r - 1, 0)
      else ((72000000 / 2250) / r - 1, 2249) := by
  unfold set_timebase
  split
  · have hq1 : 1 ≤ 72000000 / r := (Nat.one_le_div_iff (by omega)).mpr h2
    have hq2 : 72000000 / r ≤ 72000000 := Nat.div_le_self _ _
    rw [u32sub1_of_pos hq1 hq2]
  · have hr : r ≤ 32000 := by omega
    have hq1 : 1 ≤ 32000 / r := (Nat.one_le_div_iff (by omega)).mpr hr
    have hq2 : 32000 / r ≤ 72000000 :=
      le_trans (Nat.div_le_self _ _) (by omega)
    have h32 : (72000000 : Nat) / 2250 = 32000 := by norm_num
    rw [h32, u32sub1_of_pos hq1 hq2]

/-- Claim C1 witness: concrete instances of the two branches,
`set_timebase 3200 = (22499, 0)` and `set_timebase 32 = (999, 2249)`. -/
theorem set_timebase_two_branch_witness :
    set_timebase 3200 = (22499, 0) ∧ set_timebase 32 = (999, 2249) := by
  constructor
  · exact (set_timebase_two_branch 3200 (by decide) (by decide)).trans (by decide)
  · exact (set_timebase_two_branch 32 (by decide) (by decide)).trans (by decide)

/-- Claim C1 counterexample: at `r = 72_000_001` the quotient is `0`, the
`u32` subtraction wraps, and the computed reload `4294967295` differs from
the claimed integer-formula value `72_000_000/72_000_001 - 1 = -1`. -/
theorem set_timebase_formula_fails_at_72000001 :
    ¬ (((set_timebase 72000001).1 : Int) = spec_timebase_reload 72000001) := by
  decide

/-! ### Claim C4 -/

/-- Claim C4: for every `hz ≥ 1`, `siggen_set_freq hz` computes the reload
as `max(36_000_000 / 144 / hz - 1, 1)` in `u32` arithmetic, and the result
is always at least `1`, never zero. -/
theorem siggen_set_freq_ge_one (hz : Nat) (_h : 1 ≤ hz) :
    siggen_set_freq hz = max (u32sub1 (36000000 / 144 / hz)) 1 ∧
    1 ≤ siggen_set_freq hz ∧ siggen_set_freq hz ≠ 0 := by
  refine ⟨rfl, le_max_right _ _, ?_⟩
  have := le_max_right (u32sub1 (36000000 / 144 / hz)) 1
  unfold siggen_set_freq
  omega

/-- Claim C4 witness: at the very large input `hz = 4_000_000_000` the
reload is still at least `1`, and at `hz = 250000` (where the quotient
is exactly `1` and the decrement produces `0`) the clamp yields `1`. -/
theorem siggen_set_freq_ge_one_witness :
    1 ≤ siggen_set_freq 4000000000 ∧ siggen_set_freq 250000 = 1 := by
  refine ⟨(siggen_set_freq_ge_one 4000000000 (by decide)).2.1, ?_⟩
  decide

/-! ### Claim C8 -/

/-- Claim C8: `check_adc_ovr_flag` returns the overrun flag's prior value
and leaves the flag cleared: if it was set it returns `true` and clears it,
if clear it returns `false` and changes nothing; a second call with no
intervening overrun returns `false`. -/
theorem check_adc_ovr_flag_test_and_clear (ovr : Bool) :
    (check_adc_ovr_flag ovr).1 = ovr ∧
    (check_adc_ovr_flag ovr).2 = false ∧
    (check_adc_ovr_flag (check_adc_ovr_flag ovr).2).1 = false := by
  cases ovr <;> simp [check_adc_ovr_flag]

/-! ### Per-sample plot step (src/main.rs lines 264-281) -/

/-- Color constant `St7735Color::Red` (src/st7735.rs line 62), the alert
color for out-of-range samples. -/
def colorRed : Nat := 0xf800

/-- Color constant `St7735Color::White` (src/st7735.rs line 63), the
foreground trace color. -/
def colorWhite : Nat := 0xffff

/-- Microvolt conversion from src/main.rs lines 265-266:
`microvolts = raw_conversion * 806`. -/
def microvolts (raw : Nat) : Nat := raw * 806

/-- Unclamped pixel row from src/main.rs lines 270-271:
`y = 127 - (microvolts / 25_781) as i16`, as a signed integer. -/
def plotY (raw : Nat) : Int := 127 - (microvolts raw / 25781 : Nat)

/-- Embedding of the plot arm of the sweep loop (src/main.rs lines
272-281): returns the pixel row actually drawn and stored into
`previous_y`, paired with the color used. -/
def plot_step (raw : Nat) : Nat × Nat :=
  if plotY raw < 0 then (0, colorRed)
  else if plotY raw > 127 then (127, colorRed)
  else ((plotY raw).toNat, colorWhite)

lemma plotY_le (raw : Nat) : plotY raw ≤ 127 := by
  unfold plotY
  omega

lemma plot_step_fst (raw : Nat) :
    ((plot_step raw).1 : Int) = max 0 (min 127 (plotY raw)) := by
  unfold plot_step
  split
  · omega
  · split
    · omega
    · simp only []
      rw [Int.toNat_of_nonneg (by omega)]
      omega

lemma plot_step_snd (raw : Nat) :
    (plot_step raw).2 = colorRed ↔ (plotY raw < 0 ∨ 127 < plotY raw) := by
  unfold plot_step
  split
  · rename_i h
    exact ⟨fun _ => Or.inl h, fun _ => rfl⟩
  · split
    · rename_i h
      exact ⟨fun _ => Or.inr h, fun _ => rfl⟩
    · rename_i h1 h2
      constructor
      · intro hc
        have hw : colorWhite = colorRed := hc
        exact absurd hw (by decide)
      · intro hc
        rcases hc with h | h
        · exact absurd h h1
        · exact absurd h h2

lemma plot_step_fst_le (raw : Nat) : (plot_step raw).1 ≤ 127 := by
  have h := plot_step_fst raw
  omega

/-! ### Claim C2 -/

/-- Claim C2: for every raw 12-bit sample `s ≤ 4095`, the plot step
computes `microvolts = s * 806` and `y = 127 - microvolts / 25781`, stores
the value of `y` clamped to `[0,127]`, uses the alert color exactly when
`y` is out of range, and at `s = 4095` the unclamped row is `-1`, clamped
to `0` and drawn in the alert color. -/
theorem plot_step_clamped (s : Nat) (hs : s ≤ 4095) :
    microvolts s = s * 806 ∧
    plotY s = 127 - ((microvolts s / 25781 : Nat) : Int) ∧
    ((plot_step s).1 : Int) = max 0 (min 127 (plotY s)) ∧
    ((plot_step s).2 = colorRed ↔ (plotY s < 0 ∨ 127 < plotY s)) ∧
    (s = 4095 → plotY s = -1 ∧ plot_step s = (0, colorRed)) := by
  refine ⟨rfl, rfl, plot_step_fst s, plot_step_snd s, ?_⟩
  rintro rfl
  decide

/-- Claim C2 witness: the theorem applied at the full-scale sample 4095. -/
theorem plot_step_clamped_witness :
    plotY 4095 = -1 ∧ plot_step 4095 = (0, colorRed) :=
  (plot_step_clamped 4095 (by decide)).2.2.2.2 rfl

/-! ### Claim C7 -/

/-- Claim C7: for raw samples `s1 ≤ s2 ≤ 4095`, the clamped pixel row is
monotonically non-increasing: the row plotted for `s2` is at most the row
plotted for `s1` (higher voltage plots higher on screen). -/
theorem plot_row_antitone (s1 s2 : Nat) (h : s1 ≤ s2) (_h2 : s2 ≤ 4095) :
    (plot_step s2).1 ≤ (plot_step s1).1 := by
  have hy : plotY s2 ≤ plotY s1 := by
    unfold plotY microvolts
    have hdiv : s1 * 806 / 25781 ≤ s2 * 806 / 25781 :=
      Nat.div_le_div_right (Nat.mul_le_mul_right _ h)
    omega
  have h1 := plot_step_fst s1
  have h2 := plot_step_fst s2
  omega

/-- Claim C7 witness: the theorem applied at the pair `(0, 4095)`. -/
theorem plot_row_antitone_witness : (plot_step 4095).1 ≤ (plot_step 0).1 :=
  plot_row_antitone 0 4095 (by decide) (by decide)

/-! ### Sweep state machine (src/main.rs lines 224-301) -/

/-- Sweep states from src/main.rs lines 224-228. -/
inductive SweepState where
  | Before
  | During
  | After
deriving DecidableEq, Repr

/-- Foreground-loop state relevant to the sweep: the sweep state, the
output cursor `x_out`, and the `previous_y` buffer (src/main.rs lines
229, 235-236), the buffer modelled as a function from column index. -/
structure LoopState where
  sweep : SweepState
  x_out : Nat
  prev_y : Nat → Nat

/-- Initial contents of `previous_y` (src/main.rs line 235):
`[255u8; 160]`, every entry the sentinel 255. -/
def initial_prev_y : Nat → Nat := fun _ => 255

/-- One iteration of the sweep `match` in the main loop (src/main.rs lines
239-301). `x_in` is the transferred-sample count read this iteration and
`samples` the DMA sample buffer. Hardware side effects (`begin_sweep`,
LEDs, pixel drawing, `finish_sweep`, overrun check) are external; the
plotted row stored into `previous_y` is computed by `plot_step`. -/
def loop_step (x_in : Nat) (samples : Nat → Nat) (st : LoopState) : LoopState :=
  match st.sweep with
  | SweepState.Before => { st with sweep := SweepState.During, x_out := 0 }
  | SweepState.During =>
      if x_in > st.x_out then
        let st' := { st with
          prev_y := Function.update st.prev_y st.x_out
            (plot_step (samples st.x_out)).1,
          x_out := st.x_out + 1 }
        if st.x_out + 1 ≥ 160 then { st' with sweep := SweepState.After }
        else st'
      else st
  | SweepState.After => { st with sweep := SweepState.Before }

/-- Iterated main loop: `run xs samples st n` is the state after `n`
iterations, where iteration `m` reads transferred-count `xs m`. -/
def run (xs : Nat → Nat) (samples : Nat → Nat) (st : LoopState) : Nat → LoopState
  | 0 => st
  | n + 1 => loop_step (xs n) samples (run xs samples st n)

/-- Sweep invariant: the cursor never exceeds the 160-sample capacity, and
while a sweep is in progress it is strictly below it. -/
def SweepInv (st : LoopState) : Prop :=
  st.x_out ≤ 160 ∧ (st.sweep = SweepState.During → st.x_out < 160)

instance (st : LoopState) : Decidable (SweepInv st) := by
  unfold SweepInv
  infer_instance

lemma loop_step_before {st : LoopState} (h : st.sweep = SweepState.Before)
    (x_in : Nat) (samples : Nat → Nat) :
    loop_step x_in samples st =
      { st with sweep := SweepState.During, x_out := 0 } := by
  unfold loop_step
  rw [h]

lemma loop_step_after {st : LoopState} (h : st.sweep = SweepState.After)
    (x_in : Nat) (samples : Nat → Nat) :
    loop_step x_in samples st = { st with sweep := SweepState.Before } := by
  unfold loop_step
  rw [h]

lemma loop_step_during_hit {st : LoopState} (h : st.sweep = SweepState.During)
    {x_in : Nat} (hx : st.x_out < x_in) (samples : Nat → Nat) :
    loop_step x_in samples st =
      { st with
        sweep := if st.x_out + 1 ≥ 160 then SweepState.After
                 else SweepState.During,
        prev_y := Function.update st.prev_y st.x_out
          (plot_step (samples st.x_out)).1,
        x_out := st.x_out + 1 } := by
  unfold loop_step
  rw [h]
  simp only [gt_iff_lt, hx, if_true]
  split
  · rfl
  · rfl

lemma loop_step_during_miss {st : LoopState} (h : st.sweep = SweepState.During)
    {x_in : Nat} (hx : ¬ st.x_out < x_in) (samples : Nat → Nat) :
    loop_step x_in samples st = st := by
  unfold loop_step
  rw [h]
  simp only [gt_iff_lt, hx, if_false]

lemma loop_step_x_out_cases (x_in : Nat) (samples : Nat → Nat)
    (st : LoopState) :
    (loop_step x_in samples st).x_out = 0 ∨
    (loop_step x_in samples st).x_out = st.x_out ∨
    ((loop_step x_in samples st).x_out = st.x_out + 1 ∧ st.x_out < x_in) := by
  rcases hs : st.sweep with _ | _ | _
  · rw [loop_step_before hs]
    left; rfl
  · by_cases hx : st.x_out < x_in
    · rw [loop_step_during_hit hs hx]
      right; right; exact ⟨rfl, hx⟩
    · rw [loop_step_during_miss hs hx]
      right; left; rfl
  · rw [loop_step_after hs]
    right; left; rfl

lemma loop_step_preserves_inv {st : LoopState} (hinv : SweepInv st)
    {x_in : Nat} (_hx : x_in ≤ 160) (samples : Nat → Nat) :
    SweepInv (loop_step x_in samples st) := by
  obtain ⟨hle, hlt⟩ := hinv
  rcases hs : st.sweep with _ | _ | _
  · rw [loop_step_before hs]
    refine ⟨?_, fun _ => ?_⟩
    · show (0 : Nat) ≤ 160
      omega
    · show (0 : Nat) < 160
      omega
  · have hcur : st.x_out < 160 := hlt hs
    by_cases hgt : st.x_out < x_in
    · rw [loop_step_during_hit hs hgt]
      refine ⟨?_, fun hd => ?_⟩
      · show st.x_out + 1 ≤ 160
        omega
      · show st.x_out + 1 < 160
        have hd' : (if st.x_out + 1 ≥ 160 then SweepState.After
            else SweepState.During) = SweepState.During := hd
        by_cases h160 : st.x_out + 1 ≥ 160
        · rw [if_pos h160] at hd'
          exact absurd hd' (by decide)
        · omega
    · rw [loop_step_during_miss hs hgt]
      exact ⟨hle, hlt⟩
  · rw [loop_step_after hs]
    refine ⟨hle, fun hd => ?_⟩
    exact absurd (show SweepState.Before = SweepState.During from hd)
      (by decide)

lemma run_consumed_le (xs samples : Nat → Nat) {st0 : LoopState}
    (h0 : st0.sweep = SweepState.Before)
    (hmono : ∀ a b, a ≤ b → xs a ≤ xs b) :
    ∀ m, (run xs samples st0 (m + 1)).x_out ≤ xs m := by
  intro m
  induction m with
  | zero =>
      show (loop_step (xs 0) samples st0).x_out ≤ xs 0
      rw [loop_step_before h0]
      exact Nat.zero_le _
  | succ k ih =>
      show (loop_step (xs (k + 1)) samples (run xs samples st0 (k + 1))).x_out ≤
        xs (k + 1)
      have hstep := loop_step_x_out_cases (xs (k + 1)) samples
        (run xs samples st0 (k + 1))
      have hm : xs k ≤ xs (k + 1) := hmono k (k + 1) (by omega)
      rcases hstep with h | h | ⟨h, hlt⟩ <;> omega

/-! ### Claim C3 -/

/-- Claim C3: the sweep machine cycles strictly Before → During → After →
Before; entering During resets the cursor to 0; each During step with an
available sample advances `x_out` by exactly 1 and keeps it at most the
transferred count, otherwise leaves the state unchanged; the During→After
transition happens exactly when the cursor reaches 160; the invariant
`x_out ≤ 160` is preserved; and over any run whose transferred-count
reads are monotone and bounded by 160, the consumed count `x_out` never
exceeds the latest transferred count. -/
theorem sweep_state_machine (x_in : Nat) (xs samples : Nat → Nat)
    (st st0 : LoopState) :
    (st.sweep = SweepState.Before →
      (loop_step x_in samples st).sweep = SweepState.During ∧
      (loop_step x_in samples st).x_out = 0) ∧
    (st.sweep = SweepState.After →
      (loop_step x_in samples st).sweep = SweepState.Before) ∧
    (st.sweep = SweepState.During →
      (st.x_out < x_in →
        (loop_step x_in samples st).x_out = st.x_out + 1 ∧
        (loop_step x_in samples st).x_out ≤ x_in) ∧
      (x_in ≤ st.x_out →
        (loop_step x_in samples st).x_out = st.x_out ∧
        (loop_step x_in samples st).sweep = SweepState.During) ∧
      (SweepInv st →
        ((loop_step x_in samples st).sweep = SweepState.After ↔
          (loop_step x_in samples st).x_out = 160))) ∧
    (SweepInv st → x_in ≤ 160 → SweepInv (loop_step x_in samples st)) ∧
    (st0.sweep = SweepState.Before → (∀ a b, a ≤ b → xs a ≤ xs b) →
      (∀ m, xs m ≤ 160) →
      ∀ m, (run xs samples st0 (m + 1)).x_out ≤ xs m ∧
        (run xs samples st0 (m + 1)).x_out ≤ 160) := by
  refine ⟨?_, ?_, ?_, ?_, ?_⟩
  · intro hs
    rw [loop_step_before hs]
    exact ⟨rfl, rfl⟩
  · intro hs
    rw [loop_step_after hs]
  · intro hs
    refine ⟨?_, ?_, ?_⟩
    · intro hx
      rw [loop_step_during_hit hs hx]
      refine ⟨rfl, ?_⟩
      show st.x_out + 1 ≤ x_in
      omega
    · intro hx
      rw [loop_step_during_miss hs (by omega)]
      exact ⟨rfl, hs⟩
    · intro hinv
      have hcur : st.x_out < 160 := hinv.2 hs
      by_cases hx : st.x_out < x_in
      · rw [loop_step_during_hit hs hx]
        show (if st.x_out + 1 ≥ 160 then SweepState.After
            else SweepState.During) = SweepState.After ↔ st.x_out + 1 = 160
        by_cases h160 : st.x_out + 1 ≥ 160
        · rw [if_pos h160]
          exact ⟨fun _ => by omega, fun _ => rfl⟩
        · rw [if_neg h160]
          refine ⟨fun hd => absurd hd (by decide), fun hd => ?_⟩
          omega
      · rw [loop_step_during_miss hs hx]
        rw [hs]
        refine ⟨fun hd => absurd hd (by decide), fun hd => ?_⟩
        omega
  · intro hinv hx
    exact loop_step_preserves_inv hinv hx samples
  · intro h0 hmono hbound m
    have h := run_consumed_le xs samples h0 hmono m
    have hb := hbound m
    exact ⟨h, by omega⟩

/-- Fixed DMA buffer model used by the concrete witnesses: all samples
read zero. -/
def samples0 : Nat → Nat := fun _ => 0

/-- Transferred-count sequence used by the concrete witnesses: the full
160 samples are reported available from the start. -/
def xsFull : Nat → Nat := fun _ => 160

/-- Loop state at the start of the main loop (src/main.rs lines 229-236):
sweep Before, cursor 0, `previous_y` all sentinel. -/
def stStart : LoopState :=
  { sweep := SweepState.Before, x_out := 0, prev_y := initial_prev_y }

/-- Mid-sweep loop state used by the concrete witnesses. -/
def stMid : LoopState :=
  { sweep := SweepState.During, x_out := 5, prev_y := initial_prev_y }

/-- Claim C3 witness: the theorem applied at concrete states, with the
invariant and the monotone bounded read sequence discharged concretely. -/
theorem sweep_state_machine_witness :
    ((loop_step 0 samples0 stStart).sweep = SweepState.During ∧
      (loop_step 0 samples0 stStart).x_out = 0) ∧
    ((loop_step 160 samples0 stMid).x_out = 6 ∧
      (loop_step 160 samples0 stMid).x_out ≤ 160) ∧
    SweepInv (loop_step 160 samples0 stMid) ∧
    (run xsFull samples0 stStart 2).x_out ≤ xsFull 1 := by
  have h1 := (sweep_state_machine 0 xsFull samples0 stStart stStart).1 rfl
  have h2 := ((sweep_state_machine 160 xsFull samples0 stMid stStart).2.2.1
    rfl).1 (by decide)
  have h3 := (sweep_state_machine 160 xsFull samples0 stMid stStart).2.2.2.1
    (by decide) (by decide)
  have h4 := ((sweep_state_machine 0 xsFull samples0 stStart stStart).2.2.2.2
    rfl (fun a b _ => Nat.le_refl 160) (fun _ => Nat.le_refl 160) 1).1
  exact ⟨h1, h2, h3, h4⟩

/-! ### Claim C9 -/

/-- Claim C9: the sweep loop's buffer accesses are in bounds. The
transferred count `160 - ndt` is at most 160; the guarded read index
`x_out` is below 160 whenever the guard `transferred > x_out` holds; and
the loop step depends on the sample buffer only at index `x_out`, so every
buffer read is at the guarded index. -/
theorem sweep_reads_in_bounds (ndt : Nat) (st : LoopState)
    (samples samples' : Nat → Nat) :
    get_transferred_sample_count ndt ≤ 160 ∧
    (st.x_out < get_transferred_sample_count ndt → st.x_out < 160) ∧
    (samples st.x_out = samples' st.x_out →
      loop_step (get_transferred_sample_count ndt) samples st =
        loop_step (get_transferred_sample_count ndt) samples' st) := by
  refine ⟨?_, ?_, ?_⟩
  · unfold get_transferred_sample_count
    omega
  · unfold get_transferred_sample_count
    omega
  · intro hsame
    rcases hs : st.sweep with _ | _ | _
    · rw [loop_step_before hs, loop_step_before hs]
    · by_cases hx : st.x_out < get_transferred_sample_count ndt
      · rw [loop_step_during_hit hs hx, loop_step_during_hit hs hx, hsame]
      · rw [loop_step_during_miss hs hx, loop_step_during_miss hs hx]
    · rw [loop_step_after hs, loop_step_after hs]

/-- Previous-row buffer with one plotted column, used by the C9 witness. -/
def samplesAlt : Nat → Nat := fun n => if n = 5 then 0 else 4095

/-- Claim C9 witness: the theorem applied at `ndt = 100` and the mid-sweep
state with cursor 5; the two buffers agree at index 5 and nowhere else. -/
theorem sweep_reads_in_bounds_witness :
    get_transferred_sample_count 100 ≤ 160 ∧
    stMid.x_out < 160 ∧
    loop_step (get_transferred_sample_count 100) samples0 stMid =
      loop_step (get_transferred_sample_count 100) samplesAlt stMid := by
  have h := sweep_reads_in_bounds 100 stMid samples0 samplesAlt
  exact ⟨h.1, h.2.1 (by decide), h.2.2 (by decide)⟩

/-! ### Claim C10 -/

lemma loop_step_prev_y (x_in : Nat) (samples : Nat → Nat) (st : LoopState)
    (x : Nat) :
    (loop_step x_in samples st).prev_y x = st.prev_y x ∨
    (loop_step x_in samples st).prev_y x ≤ 127 := by
  rcases hs : st.sweep with _ | _ | _
  · rw [loop_step_before hs]
    left; rfl
  · by_cases hx : st.x_out < x_in
    · rw [loop_step_during_hit hs hx]
      show Function.update st.prev_y st.x_out (plot_step (samples st.x_out)).1 x =
          st.prev_y x ∨
        Function.update st.prev_y st.x_out (plot_step (samples st.x_out)).1 x ≤ 127
      by_cases hxx : x = st.x_out
      · right
        rw [hxx, Function.update_same]
        exact plot_step_fst_le _
      · left
        rw [Function.update_noteq hxx]
    · rw [loop_step_during_miss hs hx]
      left; rfl
  · rw [loop_step_after hs]
    left; rfl

lemma run_prev_y_sentinel (xs samples : Nat → Nat) (st0 : LoopState)
    (x : Nat) :
    ∀ n, (run xs samples st0 n).prev_y x = 255 →
      ∀ m, m ≤ n → (run xs samples st0 m).prev_y x = 255 := by
  intro n
  induction n with
  | zero =>
      intro h m hm
      rw [Nat.le_zero.mp hm]
      exact h
  | succ k ih =>
      intro h m hm
      have hstep := loop_step_prev_y (xs k) samples (run xs samples st0 k) x
      have hk : (run xs samples st0 k).prev_y x = 255 := by
        rcases hstep with he | hb
        · rw [← he]; exact h
        · rw [show (run xs samples st0 (k + 1)).prev_y x =
            (loop_step (xs k) samples (run xs samples st0 k)).prev_y x
            from rfl] at h
          omega
      by_cases hmk : m ≤ k
      · exact ih hk m hmk
      · rw [show m = k + 1 by omega]
        exact h

/-- Claim C10: every value the plot step stores into the previous-row
buffer is at most 127, all entries start at the sentinel 255, a loop step
either leaves an entry unchanged or writes a value at most 127, and hence
an entry equal to 255 after any number of iterations was 255 at every
earlier point — 255 uniquely marks a never-plotted column. -/
theorem prev_y_sentinel_invariant (s x_in x n m : Nat)
    (xs samples : Nat → Nat) (st st0 : LoopState) :
    (plot_step s).1 ≤ 127 ∧
    initial_prev_y x = 255 ∧
    ((loop_step x_in samples st).prev_y x = st.prev_y x ∨
      (loop_step x_in samples st).prev_y x ≤ 127) ∧
    ((run xs samples st0 n).prev_y x = 255 → m ≤ n →
      (run xs samples st0 m).prev_y x = 255) := by
  refine ⟨plot_step_fst_le s, rfl, loop_step_prev_y x_in samples st x, ?_⟩
  intro h hm
  exact run_prev_y_sentinel xs samples st0 x n h m hm

/-- Claim C10 witness: the theorem applied at the full-scale sample, the
start state, and a two-iteration run in which column 20 is never plotted. -/
theorem prev_y_sentinel_invariant_witness :
    (plot_step 4095).1 ≤ 127 ∧
    initial_prev_y 20 = 255 ∧
    (run xsFull samples0 stStart 1).prev_y 20 = 255 := by
  have h := prev_y_sentinel_invariant 4095 0 20 2 1 xsFull samples0 stStart
    stStart
  refine ⟨h.1, h.2.1, h.2.2.2 ?_ (by decide)⟩
  show (run xsFull samples0 stStart 2).prev_y 20 = 255
  decide

/-! ### Button debouncing and the SysTick handler
(src/main.rs lines 84-96 and 353-386) -/

/-- Per-button state (src/main.rs lines 84-86): the debounced logical
state, the changed-since-last-check flag, and the debounce countdown. -/
structure ButtonState where
  state : Bool
  changed : Bool
  debounce : Nat
deriving DecidableEq, Repr

/-- One button's update inside the SysTick handler loop (src/main.rs lines
364-383). `pinHigh` is the live GPIO level; the buttons are active-low
with pull-up, so the logical level is its negation. -/
def button_tick (pinHigh : Bool) (b : ButtonState) : ButtonState :=
  if b.debounce > 0 then { b with debounce := b.debounce - 1 }
  else
    if !pinHigh then
      if b.state = false then
        { state := true, changed := true, debounce := 100 }
      else b
    else
      if b.state = true then
        { state := false, changed := true, debounce := 100 }
      else b

/-- State touched by the SysTick handler: the blocking-delay counter
(src/main.rs line 353) and the four button records. -/
structure SysState where
  timing_delay : Nat
  buttons : Fin 4 → ButtonState

/-- Embedding of `systick_handler` (src/main.rs lines 355-386): decrements
the delay counter if nonzero and runs the debounce update on each of the
four buttons, given the four live pin levels. -/
def systick_handler (pins : Fin 4 → Bool) (st : SysState) : SysState :=
  { timing_delay := if st.timing_delay ≠ 0 then st.timing_delay - 1
                    else st.timing_delay,
    buttons := fun i => button_tick (pins i) (st.buttons i) }

/-- Embedding of `button_reset_changed` (src/main.rs lines 91-93): the
foreground loop clears one button's changed flag. -/
def button_reset_changed (st : SysState) (i : Fin 4) : SysState :=
  { st with
    buttons := Function.update st.buttons i
      { st.buttons i with changed := false } }

/-- Iterated SysTick handler: `systick_iter p st n` is the state after `n`
ticks, tick `m` reading live pin levels `p m`. -/
def systick_iter (p : Nat → Fin 4 → Bool) (st : SysState) : Nat → SysState
  | 0 => st
  | n + 1 => systick_handler (p n) (systick_iter p st n)

/-! ### Claim C5 -/

/-- Claim C5: on each SysTick invocation, a button whose debounce
countdown is positive only has it decremented; otherwise the live pin
level is read and inverted, and on a mismatch with the stored state the
state is set to the inverted level, the changed flag set, and the
countdown reloaded to 100, while on a match nothing changes; the delay
counter is decremented when nonzero. -/
theorem systick_handler_spec (pins : Fin 4 → Bool) (st : SysState)
    (i : Fin 4) :
    (0 < (st.buttons i).debounce →
      (systick_handler pins st).buttons i =
        { st.buttons i with debounce := (st.buttons i).debounce - 1 }) ∧
    ((st.buttons i).debounce = 0 →
      ((!(pins i)) ≠ (st.buttons i).state →
        (systick_handler pins st).buttons i =
          { state := !(pins i), changed := true, debounce := 100 }) ∧
      ((!(pins i)) = (st.buttons i).state →
        (systick_handler pins st).buttons i = st.buttons i)) ∧
    (systick_handler pins st).timing_delay =
      (if st.timing_delay ≠ 0 then st.timing_delay - 1
       else st.timing_delay) := by
  refine ⟨?_, ?_, rfl⟩
  · intro hd
    show button_tick (pins i) (st.buttons i) = _
    unfold button_tick
    rw [if_pos hd]
  · intro hd
    have hstep : (systick_handler pins st).buttons i =
        button_tick (pins i) (st.buttons i) := rfl
    constructor
    · intro hne
      rw [hstep]
      unfold button_tick
      rw [if_neg (by omega)]
      cases hp : pins i <;> cases hsb : (st.buttons i).state <;>
        rw [hp, hsb] at hne <;> simp at hne ⊢
    · intro heq
      rw [hstep]
      unfold button_tick
      rw [if_neg (by omega)]
      cases hp : pins i <;> cases hsb : (st.buttons i).state <;>
        rw [hp, hsb] at heq <;> simp at heq ⊢

/-- Live pin levels used by the concrete witnesses: every pin reads low
(buttons pressed, since the pins are active-low). -/
def pinsLow : Fin 4 → Bool := fun _ => false

/-- Pin-level sequence used by the concrete witnesses: pins low forever. -/
def pinSeqLow : Nat → Fin 4 → Bool := fun _ _ => false

/-- SysTick state used by the C5 witness: delay 5, all buttons released
with countdown 0. -/
def sysIdle : SysState :=
  { timing_delay := 5,
    buttons := fun _ => { state := false, changed := false, debounce := 0 } }

/-- Claim C5 witness: the theorem applied to the idle state with pin 0
low, confirming the transition to pressed with countdown 100 and the delay
decrement. -/
theorem systick_handler_spec_witness :
    (systick_handler pinsLow sysIdle).buttons 0 =
      { state := true, changed := true, debounce := 100 } ∧
    (systick_handler pinsLow sysIdle).timing_delay = 4 := by
  have h := systick_handler_spec pinsLow sysIdle 0
  refine ⟨(h.2.1 rfl).1 (by decide), ?_⟩
  rw [h.2.2]
  decide

/-! ### Claim C6 -/

lemma button_tick_pos (pinHigh : Bool) (b : ButtonState)
    (h : 0 < b.debounce) :
    button_tick pinHigh b = { b with debounce := b.debounce - 1 } := by
  unfold button_tick
  rw [if_pos h]

lemma button_tick_zero (pinHigh : Bool) (b : ButtonState)
    (h : ¬ 0 < b.debounce) :
    button_tick pinHigh b =
      if (!pinHigh) = b.state then b
      else { state := !pinHigh, changed := true, debounce := 100 } := by
  unfold button_tick
  rw [if_neg h]
  cases pinHigh <;> cases hb : b.state <;> simp [hb]

lemma systick_iter_locked (p : Nat → Fin 4 → Bool) (st : SysState)
    (i : Fin 4) :
    ∀ n, n ≤ (st.buttons i).debounce →
      (systick_iter p st n).buttons i =
        { st.buttons i with debounce := (st.buttons i).debounce - n } := by
  intro n
  induction n with
  | zero => intro _; rfl
  | succ k ih =>
      intro hk
      have hb : (systick_iter p st (k + 1)).buttons i =
          button_tick (p k i) ((systick_iter p st k).buttons i) := rfl
      rw [hb, ih (by omega),
        button_tick_pos _ _ (show 0 < (st.buttons i).debounce - k by omega)]
      show ButtonState.mk (st.buttons i).state (st.buttons i).changed
          ((st.buttons i).debounce - k - 1) =
        ButtonState.mk (st.buttons i).state (st.buttons i).changed
          ((st.buttons i).debounce - (k + 1))
      congr 1

/-- Claim C6: the tick handler never clears a set changed flag — it is
cleared only by `button_reset_changed`; whenever a tick changes the
debounced state the changed flag is set and the countdown reloaded to 100;
and for any `n` ticks not exceeding the countdown, the button's state and
changed flag are untouched and the countdown just counts down — so after a
confirmed transition the state cannot change again for 100 ticks and the
flag is set at most once per transition. -/
theorem button_changed_edge (pins : Fin 4 → Bool) (p : Nat → Fin 4 → Bool)
    (st : SysState) (i : Fin 4) (n : Nat) :
    ((st.buttons i).changed = true →
      ((systick_handler pins st).buttons i).changed = true) ∧
    ((button_reset_changed st i).buttons i).changed = false ∧
    (((systick_handler pins st).buttons i).state ≠ (st.buttons i).state →
      ((systick_handler pins st).buttons i).changed = true ∧
      ((systick_handler pins st).buttons i).debounce = 100) ∧
    (n ≤ (st.buttons i).debounce →
      (systick_iter p st n).buttons i =
        { st.buttons i with debounce := (st.buttons i).debounce - n }) := by
  have hb : (systick_handler pins st).buttons i =
      button_tick (pins i) (st.buttons i) := rfl
  refine ⟨?_, ?_, ?_, systick_iter_locked p st i n⟩
  · intro hc
    rw [hb]
    by_cases hd : 0 < (st.buttons i).debounce
    · rw [button_tick_pos _ _ hd]
      exact hc
    · rw [button_tick_zero _ _ hd]
      by_cases he : (!(pins i)) = (st.buttons i).state
      · rw [if_pos he]
        exact hc
      · rw [if_neg he]
  · show (Function.update st.buttons i
      { st.buttons i with changed := false } i).changed = false
    rw [Function.update_same]
  · intro hne
    rw [hb] at hne ⊢
    by_cases hd : 0 < (st.buttons i).debounce
    · rw [button_tick_pos _ _ hd] at hne
      exact absurd rfl hne
    · rw [button_tick_zero _ _ hd] at hne ⊢
      by_cases he : (!(pins i)) = (st.buttons i).state
      · rw [if_pos he] at hne
        exact absurd rfl hne
      · rw [if_neg he] at hne ⊢
        exact ⟨rfl, rfl⟩

/-- SysTick state just after a confirmed press: flag set, countdown at the
full hold-off of 100 ticks. -/
def sysPressed : SysState :=
  { timing_delay := 0,
    buttons := fun _ => { state := true, changed := true, debounce := 100 } }

/-- Claim C6 witness: the theorem applied just after a confirmed press —
one tick keeps the flag set, the explicit reset clears it, and 100 ticks
of held-low pins leave the state and flag untouched with the countdown
exhausted. -/
theorem button_changed_edge_witness :
    ((systick_handler pinsLow sysPressed).buttons 0).changed = true ∧
    ((button_reset_changed sysPressed 0).buttons 0).changed = false ∧
    (systick_iter pinSeqLow sysPressed 100).buttons 0 =
      { state := true, changed := true, debounce := 0 } := by
  have h := button_changed_edge pinsLow pinSeqLow sysPressed 0 100
  refine ⟨h.1 rfl, h.2.1, ?_⟩
  rw [h.2.2.2 (by decide)]
  rfl

end Oscilloscope
